import Mathlib

/-!
Verification of the Lyzr memory-manager repository.

This file shallowly embeds the core of the repository:

* `src/encoder_decoder.py` — `encode_text_local` / `decode_text_local`
  (lzma compress → base64 encode, and the inverse);
* `src/memory_manager.py` — class `SimpleMemoryManager`: the SQLite-backed
  session store, admission filter (`_grade_response` / `store_response`),
  eviction policy (`should_reabsorb` / `reabsorb_oldest`), semantic recall
  (`find_relevant`), and metrics.

Modelling conventions:

* Python strings are Lean `String`s; byte strings are `List Nat` with every
  element `< 256`.
* The base64 codec (`base64.b64encode` / `base64.b64decode` over the standard
  alphabet) is implemented concretely below.  The model decoder is strict
  where Python's default decoder is lenient about foreign characters; no
  theorem in this file depends on the difference (decoding is only applied to
  encoder output, or under an explicit "decoding fails" hypothesis satisfied
  in both semantics).
* `lzma.compress` / `lzma.decompress` and UTF-8 encoding/decoding are
  external stdlib primitives; they are modelled by the `ExtFns` interface
  carrying their documented contracts: lossless round-trip, byte-valued
  output, and (for lzma) the xz container framing which makes every
  compressed stream at least 32 bytes long (`lzma.compress(b"")` is exactly
  32 bytes).
* `datetime.now().timestamp()` is modelled by a per-database strictly
  increasing clock (`DB.clock`): each call to `now()` ticks the clock, so
  rows inserted later have strictly larger timestamps and `ORDER BY
  timestamp ASC` coincides with insertion order of the model's row list.
* SQLite tables are association lists of rows kept in insertion order.
* Exceptions are modelled with `Except`/pairing with the unchanged state.
-/

/-! ## Base64 (Python `base64.b64encode` / `b64decode`, standard alphabet) -/

def b64Alphabet : List Char :=
  "ABCDEFGHIJKLMNOPQRSTUVWXYZabcdefghijklmnopqrstuvwxyz0123456789+/".toList

def b64CharOf (n : Nat) : Char := b64Alphabet.getD n 'A'

def b64IdxOf (c : Char) : Option Nat := b64Alphabet.findIdx? (· = c)

/-- `base64.b64encode`: 3 input bytes become 4 alphabet characters; a final
group of 1 or 2 bytes is padded with `=`. -/
def b64EncodeBytes : List Nat → List Char
  | b0 :: b1 :: b2 :: rest =>
      b64CharOf (b0 / 4) :: b64CharOf (b0 % 4 * 16 + b1 / 16) ::
      b64CharOf (b1 % 16 * 4 + b2 / 64) :: b64CharOf (b2 % 64) :: b64EncodeBytes rest
  | [b0, b1] =>
      [b64CharOf (b0 / 4), b64CharOf (b0 % 4 * 16 + b1 / 16), b64CharOf (b1 % 16 * 4), '=']
  | [b0] => [b64CharOf (b0 / 4), b64CharOf (b0 % 4 * 16), '=', '=']
  | [] => []

/-- Inverse of `b64EncodeBytes` (`base64.b64decode` on well-formed input;
`none` models `binascii.Error`). -/
def b64DecodeChars : List Char → Option (List Nat)
  | [] => some []
  | c0 :: c1 :: c2 :: c3 :: rest =>
    match b64IdxOf c0, b64IdxOf c1 with
    | some i0, some i1 =>
      if c2 = '=' then
        if c3 = '=' ∧ rest = [] then some [i0 * 4 + i1 / 16] else none
      else
        match b64IdxOf c2 with
        | some i2 =>
          if c3 = '=' then
            if rest = [] then some [i0 * 4 + i1 / 16, i1 % 16 * 16 + i2 / 4] else none
          else
            match b64IdxOf c3, b64DecodeChars rest with
            | some i3, some bs =>
                some ((i0 * 4 + i1 / 16) :: (i1 % 16 * 16 + i2 / 4) :: (i2 % 4 * 64 + i3) :: bs)
            | _, _ => none
        | none => none
    | _, _ => none
  | _ => none

def b64encodeStr (bs : List Nat) : String := ⟨b64EncodeBytes bs⟩

def b64decodeStr (s : String) : Option (List Nat) := b64DecodeChars s.toList

theorem b64IdxOf_b64CharOf : ∀ n < 64, b64IdxOf (b64CharOf n) = some n := by decide

theorem b64CharOf_ne_pad : ∀ n < 64, ¬ b64CharOf n = '=' := by decide

theorem b64_roundtrip :
    ∀ bs : List Nat, (∀ x ∈ bs, x < 256) → b64DecodeChars (b64EncodeBytes bs) = some bs
  | [] => fun _ => by simp [b64EncodeBytes, b64DecodeChars]
  | [b0] => fun h => by
      have hb0 : b0 < 256 := h b0 (by simp)
      have h1 := b64IdxOf_b64CharOf (b0 / 4) (by omega)
      have h2 := b64IdxOf_b64CharOf (b0 % 4 * 16) (by omega)
      simp [b64EncodeBytes, b64DecodeChars, h1, h2]
      omega
  | [b0, b1] => fun h => by
      have hb0 : b0 < 256 := h b0 (by simp)
      have hb1 : b1 < 256 := h b1 (by simp)
      have h1 := b64IdxOf_b64CharOf (b0 / 4) (by omega)
      have h2 := b64IdxOf_b64CharOf (b0 % 4 * 16 + b1 / 16) (by omega)
      have h3 := b64IdxOf_b64CharOf (b1 % 16 * 4) (by omega)
      have hne := b64CharOf_ne_pad (b1 % 16 * 4) (by omega)
      simp [b64EncodeBytes, b64DecodeChars, h1, h2, h3, hne]
      constructor <;> omega
  | b0 :: b1 :: b2 :: rest => fun h => by
      have hb0 : b0 < 256 := h b0 (by simp)
      have hb1 : b1 < 256 := h b1 (by simp)
      have hb2 : b2 < 256 := h b2 (by simp)
      have ih := b64_roundtrip rest (fun x hx => h x (by simp [hx]))
      have h1 := b64IdxOf_b64CharOf (b0 / 4) (by omega)
      have h2 := b64IdxOf_b64CharOf (b0 % 4 * 16 + b1 / 16) (by omega)
      have h3 := b64IdxOf_b64CharOf (b1 % 16 * 4 + b2 / 64) (by omega)
      have h4 := b64IdxOf_b64CharOf (b2 % 64) (by omega)
      have hne3 := b64CharOf_ne_pad (b1 % 16 * 4 + b2 / 64) (by omega)
      have hne4 := b64CharOf_ne_pad (b2 % 64) (by omega)
      simp [b64EncodeBytes, b64DecodeChars, h1, h2, h3, h4, hne3, hne4, ih]
      refine ⟨by omega, by omega, by omega⟩

/-! ## External primitives: UTF-8 and lzma

`encoder_decoder.py` composes Python stdlib primitives:
`text.encode("utf-8")`, `lzma.compress(..., preset=6)`, `lzma.decompress`,
`bytes.decode("utf-8")`.  These are not repository code; they are modelled by
an interface carrying their documented contracts (losslessness, byte-valued
output, and the xz container minimum size — `lzma.compress` always emits the
12-byte stream header, a block, an index and the 12-byte stream footer, at
least 32 bytes in total). -/

structure ExtFns where
  utf8Enc : String → List Nat
  utf8Dec : List Nat → Option String
  lzmaCompress : List Nat → List Nat
  lzmaDecompress : List Nat → Option (List Nat)
  utf8Enc_bytes : ∀ s, ∀ x ∈ utf8Enc s, x < 256
  utf8_rt : ∀ s, utf8Dec (utf8Enc s) = some s
  lzmaCompress_bytes : ∀ b, (∀ x ∈ b, x < 256) → ∀ x ∈ lzmaCompress b, x < 256
  lzma_rt : ∀ b, lzmaDecompress (lzmaCompress b) = some b
  lzma_min_size : ∀ b, 32 ≤ (lzmaCompress b).length

/-! ## `src/encoder_decoder.py` -/

/-- The dict returned by `encode_text_local`. -/
structure EncodedPayload where
  title : String
  encoded_data : String
deriving DecidableEq

/-- `encode_text_local(text, title)`: lzma-compress the UTF-8 bytes of
`text`, base64-encode the result, and return it under `encoded_data`. -/
def encode_text_local (E : ExtFns) (text title : String) : EncodedPayload :=
  ⟨title, b64encodeStr (E.lzmaCompress (E.utf8Enc text))⟩

/-- `decode_text_local(encoded_data)`: base64-decode, lzma-decompress,
UTF-8-decode.  Any stage failing raises
`ValueError("Decompression failed: ...")`, modelled as `Except.error`. -/
def decode_text_local (E : ExtFns) (encoded_data : String) : Except String String :=
  match b64decodeStr encoded_data with
  | none => .error "Decompression failed"
  | some compressed =>
    match E.lzmaDecompress compressed with
    | none => .error "Decompression failed"
    | some bs =>
      match E.utf8Dec bs with
      | none => .error "Decompression failed"
      | some text => .ok text

theorem decode_encode_aux (E : ExtFns) (s t : String) :
    decode_text_local E (encode_text_local E s t).encoded_data = .ok s := by
  have hbytes : ∀ x ∈ E.lzmaCompress (E.utf8Enc s), x < 256 :=
    E.lzmaCompress_bytes _ (E.utf8Enc_bytes s)
  have hb64 : b64decodeStr (b64encodeStr (E.lzmaCompress (E.utf8Enc s))) =
      some (E.lzmaCompress (E.utf8Enc s)) := by
    simpa [b64decodeStr, b64encodeStr] using b64_roundtrip _ hbytes
  simp [decode_text_local, encode_text_local, hb64, E.lzma_rt, E.utf8_rt]

/-! ### A concrete interpretation of the external primitives

Used only to instantiate witnesses and counterexamples; every theorem about
the repository quantifies over all interpretations satisfying the contracts.
The character codec packs each Unicode scalar value into three bytes
(big-endian); the compressor prepends the 32 zero bytes of container
framing. -/

def cpEncChar (c : Char) : List Nat := [c.toNat / 65536, c.toNat / 256 % 256, c.toNat % 256]

def cpEnc (s : String) : List Nat := s.toList.foldr (fun c acc => cpEncChar c ++ acc) []

def cpDecChars : List Nat → Option (List Char)
  | [] => some []
  | b0 :: b1 :: b2 :: rest =>
      (cpDecChars rest).map fun cs => Char.ofNat (b0 * 65536 + b1 * 256 + b2) :: cs
  | _ => none

def cpDec (bs : List Nat) : Option String := (cpDecChars bs).map fun cs => ⟨cs⟩

theorem cpDecChars_cpEnc (s : String) : cpDecChars (cpEnc s) = some s.toList := by
  suffices h : ∀ cs : List Char,
      cpDecChars (cs.foldr (fun c acc => cpEncChar c ++ acc) []) = some cs by
    simpa [cpEnc] using h s.toList
  intro cs
  induction cs with
  | nil => simp [cpDecChars]
  | cons c cs ih =>
    have hval : c.toNat < 1114112 := by
      have := c.valid
      rcases this with h | h
      · have : c.val.toNat < 55296 := h
        simp only [Char.toNat]; omega
      · have : c.val.toNat < 1114112 := h.2
        simp only [Char.toNat]; omega
    have hrec : c.toNat / 65536 * 65536 + c.toNat / 256 % 256 * 256 + c.toNat % 256 = c.toNat := by
      omega
    rw [List.foldr_cons]
    generalize List.foldr (fun c acc => cpEncChar c ++ acc) [] cs = tl at ih ⊢
    simp [cpEncChar, cpDecChars, ih, hrec, Char.ofNat_toNat]

def extModel : ExtFns where
  utf8Enc := cpEnc
  utf8Dec := cpDec
  lzmaCompress b := List.replicate 32 0 ++ b
  lzmaDecompress b :=
    if 32 ≤ b.length ∧ b.take 32 = List.replicate 32 0 then some (b.drop 32) else none
  utf8Enc_bytes := by
    intro s x hx
    suffices h : ∀ cs : List Char,
        ∀ x ∈ cs.foldr (fun c acc => cpEncChar c ++ acc) [], x < 256 by
      exact h s.toList x (by simpa [cpEnc] using hx)
    intro cs
    induction cs with
    | nil => simp
    | cons c cs ih =>
      intro y hy
      simp only [List.foldr, List.mem_append] at hy
      rcases hy with hy | hy
      · have hval : c.toNat < 1114112 := by
          rcases c.valid with h | h
          · have : c.val.toNat < 55296 := h
            simp only [Char.toNat]; omega
          · have : c.val.toNat < 1114112 := h.2
            simp only [Char.toNat]; omega
        simp only [cpEncChar, List.mem_cons, List.mem_singleton] at hy
        rcases hy with rfl | rfl | rfl | h
        · omega
        · omega
        · omega
        · simp at h
      · exact ih y hy
  utf8_rt := by
    intro s
    simp [cpDec, cpDecChars_cpEnc]
  lzmaCompress_bytes := by
    intro b hb x hx
    simp only [List.mem_append, List.mem_replicate] at hx
    rcases hx with hx | hx
    · omega
    · exact hb x hx
  lzma_rt := by
    intro b
    simp
  lzma_min_size := by
    intro b
    simp

/-! ## Python string helpers -/

/-- `leadEq needle hay`: `needle` is an initial segment of `hay`. -/
def leadEq : List Char → List Char → Bool
  | [], _ => true
  | _ :: _, [] => false
  | a :: as, b :: bs => a == b && leadEq as bs

/-- `subOccurs needle hay`: `needle` occurs contiguously in `hay`
(Python's `needle in hay` for strings; the empty needle occurs). -/
def subOccurs (needle : List Char) : List Char → Bool
  | [] => leadEq needle []
  | h :: t => leadEq needle (h :: t) || subOccurs needle t

/-- Python `needle in hay` on strings. -/
def pyContains (hay needle : String) : Bool := subOccurs needle.toList hay.toList

/-- Python `len(s.split())`: number of maximal whitespace-free words. -/
def pySplitCount (s : String) : Nat :=
  ((s.split fun c => c.isWhitespace).filter fun w => !w.isEmpty).length

/-- Python `s.lower()` (character-wise; coincides with Python on the ASCII
range, which is all the keyword matching below inspects). -/
def pyLower (s : String) : String := ⟨s.toList.map Char.toLower⟩

/-! ## `src/memory_manager.py` — data model

SQLite tables are modelled as lists of rows in insertion order; `rowid`
models the `AUTOINCREMENT` primary key and `clock` the wall clock sampled by
`datetime.now().timestamp()` (strictly increasing per call, so `ORDER BY
timestamp ASC` agrees with list order for rows the model inserts). -/

structure EncodedRow where
  rowid : Nat
  chat_id : String
  timestamp : Nat
  title : String
  encoded_data : String
  orig_tokens : Nat
deriving DecidableEq

structure SessionRow where
  chat_id : String
  title : String
  created_at : Nat
  last_updated : Nat
  preview : String
deriving DecidableEq

structure DB where
  encoded_memory : List EncodedRow
  chat_sessions : List SessionRow
  next_id : Nat
  clock : Nat
deriving DecidableEq

/-- One call of `datetime.now().timestamp()` against this database's clock. -/
def DB.tick (db : DB) : Nat × DB := (db.clock + 1, {db with clock := db.clock + 1})

/-- `self.metrics` of `SimpleMemoryManager`.  `total_compressed_chars`
accumulates `orig_chars - len(encoded_data)`, a (possibly negative) Python
int. -/
structure Metrics where
  stores : Nat
  skipped_short : Nat
  skipped_low_grade : Nat
  reabsorbs : Nat
  evictions : Nat
  total_compressed_chars : Int
  semantic_recalls : Nat
deriving DecidableEq

/-- The mutable state of a `SimpleMemoryManager` instance (plus its SQLite
database: the model pairs the instance with the store behind `db_path`). -/
structure SimpleMemoryManager where
  db : DB
  token_limit : Nat
  min_tokens_threshold : Nat
  grade_threshold : Nat
  use_grader : Bool
  reabsorb_interval : Nat
  turn_counter : Nat
  chat_id : String
  enable_history : Bool
  first_prompt : Option String
  metrics : Metrics
  stored_texts : List (String × String)
deriving DecidableEq

/-- `SimpleMemoryManager.__init__` with default arguments on a fresh
database (SQLite rowids start at 1). -/
def initManager : SimpleMemoryManager where
  db := ⟨[], [], 1, 0⟩
  token_limit := 8000
  min_tokens_threshold := 50
  grade_threshold := 6
  use_grader := false
  reabsorb_interval := 3
  turn_counter := 0
  chat_id := "GLOBAL"
  enable_history := true
  first_prompt := none
  metrics := ⟨0, 0, 0, 0, 0, 0, 0⟩
  stored_texts := []

/-! ## Session-store operations -/

/-- `create_session`: `INSERT OR IGNORE` of a `chat_sessions` row.  The
`uuid4` drawn when `chat_id == 'GLOBAL'` is modelled by an opaque constant;
no theorem below depends on its uniqueness. -/
def create_session (m : SimpleMemoryManager) (title : String) : SimpleMemoryManager :=
  if !m.enable_history then m
  else
    let m := if m.chat_id == "GLOBAL" then {m with chat_id := "uuid4"} else m
    let (now, db) := m.db.tick
    let db :=
      if db.chat_sessions.any fun r => r.chat_id == m.chat_id then db
      else {db with chat_sessions :=
        db.chat_sessions ++ [⟨m.chat_id, title, now, now, "Welcome to chat!"⟩]}
    {m with db := db}

/-- `update_session`: overwrite title/preview and refresh `last_updated` for
the active session's row. -/
def update_session (m : SimpleMemoryManager) (title preview : String) : SimpleMemoryManager :=
  if !m.enable_history then m
  else
    let (now, db) := m.db.tick
    {m with db := {db with chat_sessions := db.chat_sessions.map fun r =>
      if r.chat_id == m.chat_id then
        {r with title := title, last_updated := now, preview := preview}
      else r}}

/-- `set_chat_id`: switch the active session, resetting the turn counter and
the in-memory plaintext cache. -/
def set_chat_id (m : SimpleMemoryManager) (cid : String) : SimpleMemoryManager :=
  let m := {m with chat_id := cid, turn_counter := 0, stored_texts := []}
  if m.enable_history then create_session m "New Chat" else m

/-- `get_session_history(chat_id)`: `(title, orig_tokens, timestamp)` of the
session's rows ordered by timestamp ascending. -/
def get_session_history (m : SimpleMemoryManager) (cid : String) : List (String × Nat × Nat) :=
  (m.db.encoded_memory.filter fun r => r.chat_id == cid).map fun r =>
    (r.title, r.orig_tokens, r.timestamp)

/-- `delete_session(chat_id)`: drop the session row and all its turns. -/
def delete_session (m : SimpleMemoryManager) (cid : String) : SimpleMemoryManager :=
  if !m.enable_history then m
  else {m with db := {m.db with
    chat_sessions := m.db.chat_sessions.filter fun r => !(r.chat_id == cid),
    encoded_memory := m.db.encoded_memory.filter fun r => !(r.chat_id == cid)}}

/-- `get_stored_tokens_for_session(chat_id)`:
`SELECT SUM(orig_tokens) ... WHERE chat_id = ?` (0 when the session has no
rows). -/
def get_stored_tokens_for_session (m : SimpleMemoryManager) (cid : String) : Nat :=
  ((m.db.encoded_memory.filter fun r => r.chat_id == cid).map fun r => r.orig_tokens).sum

def get_stored_tokens (m : SimpleMemoryManager) : Nat :=
  get_stored_tokens_for_session m m.chat_id

/-! ## Admission filter -/

/-- Python truthiness of an optional string (`if first_prompt:`). -/
def fpTruthy : Option String → Bool
  | some s => !s.isEmpty
  | none => false

def hasAnyKeyword (response : String) : Bool :=
  ["explain", "detail", "example"].any fun w => pyContains (pyLower response) w

/-- `_grade_response`: constant 7 when the grader is off, else the mean of a
length bucket and a keyword score, in integer arithmetic. -/
def grade_response (m : SimpleMemoryManager) (response : String) : Nat :=
  if !m.use_grader then 7
  else
    let length_score := min 10 (pySplitCount response / 10)
    let keyword_score := if hasAnyKeyword response then 5 else 3
    (length_score + keyword_score) / 2

/-- `f"Chat about {self.first_prompt[:30].replace(' ', '_')}"`. -/
def autoTitleOf (fp : String) : String :=
  "Chat about " ++ (fp.take 30).map fun c => if c = ' ' then '_' else c

/-- `if first_prompt: self.first_prompt = first_prompt` (Python truthiness:
`None` and `""` leave the field alone). -/
def newFP (old fp : Option String) : Option String :=
  match fp with
  | some s => if s.isEmpty then old else some s
  | none => old

/-- `if tokens is None: tokens = len(response.split())`. -/
def effTokens (tokens? : Option Nat) (response : String) : Nat :=
  tokens?.getD (pySplitCount response)

/-- `store_response(response, title, first_prompt=None, tokens=None)`. -/
def store_response (E : ExtFns) (m : SimpleMemoryManager) (response title : String)
    (first_prompt : Option String) (tokens? : Option Nat) : SimpleMemoryManager :=
  let m := {m with first_prompt := newFP m.first_prompt first_prompt}
  let tokens := effTokens tokens? response
  if tokens < m.min_tokens_threshold then
    {m with metrics := {m.metrics with skipped_short := m.metrics.skipped_short + 1}}
  else
    let score := grade_response m response
    if score < m.grade_threshold then
      {m with metrics := {m.metrics with skipped_low_grade := m.metrics.skipped_low_grade + 1}}
    else
      let m :=
        if fpTruthy m.first_prompt && pyContains title "New Chat" then
          update_session m (autoTitleOf (m.first_prompt.getD ""))
            ("Started with: " ++ (m.first_prompt.getD "").take 50 ++ "...")
        else m
      let encoded_dict := encode_text_local E response title
      let orig_chars := (E.utf8Enc response).length
      let m := {m with metrics := {m.metrics with total_compressed_chars :=
        m.metrics.total_compressed_chars +
          ((orig_chars : Int) - (encoded_dict.encoded_data.length : Int))}}
      let (now, db) := m.db.tick
      let db := {db with
        encoded_memory := db.encoded_memory ++
          [⟨db.next_id, m.chat_id, now, title, encoded_dict.encoded_data, tokens⟩],
        next_id := db.next_id + 1}
      let m := {m with db := db}
      let m := {m with metrics := {m.metrics with stores := m.metrics.stores + 1}}
      let m :=
        if m.enable_history then
          update_session m title ("Last: " ++ response.take 50 ++ "...")
        else m
      {m with stored_texts := m.stored_texts ++ [(m.chat_id, response)]}

/-! ## Eviction policy -/

/-- `should_reabsorb(current_tokens)`: bump the turn counter, then decide.
`current_tokens > self.token_limit * 0.8` is rendered over the integers as
`5 * current_tokens > 4 * token_limit`; Python evaluates the right-hand side
in binary floating point, where `100 * 0.8` (the documented scenario) is
exactly `80.0`. -/
def should_reabsorb (m : SimpleMemoryManager) (current_tokens : Nat) :
    Bool × SimpleMemoryManager :=
  let m := {m with turn_counter := m.turn_counter + 1}
  let high_usage := decide (4 * m.token_limit < 5 * current_tokens)
  let on_interval := m.turn_counter % m.reabsorb_interval == 0
  (high_usage || on_interval, m)

/-- `SELECT ... WHERE chat_id = ? ORDER BY timestamp ASC`. -/
def sessionRows (db : DB) (cid : String) : List EncodedRow :=
  db.encoded_memory.filter fun r => r.chat_id == cid

/-- `reabsorb_oldest()`: decode the oldest row of the active session, then
delete it and bump the metrics; `""` when the session has no rows.  A decode
failure raises before the `DELETE` runs, leaving every row and counter
untouched — the pair's second component is the manager state after the call
(unchanged on error). -/
def reabsorb_oldest (E : ExtFns) (m : SimpleMemoryManager) :
    Except String String × SimpleMemoryManager :=
  match (sessionRows m.db m.chat_id).head? with
  | none => (.ok "", m)
  | some row =>
    match decode_text_local E row.encoded_data with
    | .error e => (.error e, m)
    | .ok text =>
      let db := {m.db with encoded_memory :=
        m.db.encoded_memory.filter fun r => !(r.rowid == row.rowid && r.chat_id == m.chat_id)}
      let metrics := {m.metrics with reabsorbs := m.metrics.reabsorbs + 1,
                                     evictions := m.metrics.evictions + 1}
      (.ok text, {m with db := db, metrics := metrics})

/-! ## Semantic recall

`TfidfVectorizer.fit_transform` + `cosine_similarity` are external library
calls; they are modelled by an oracle producing one similarity per cached
text (`none` models the raised exception swallowed by the `except` branch).
`np.argsort` is modelled by a deterministic insertion argsort (NumPy's
default sort is likewise unstable but deterministic for fixed input). -/

structure SimModel where
  sims : List String → String → Option (List ℚ)
  sims_length : ∀ ts q r, sims ts q = some r → r.length = ts.length

def insertAsc (sims : List ℚ) (i : Nat) : List Nat → List Nat
  | [] => [i]
  | j :: t => if sims.getD i 0 < sims.getD j 0 then i :: j :: t else j :: insertAsc sims i t

def argsortAsc (sims : List ℚ) : List Nat :=
  (List.range sims.length).foldr (insertAsc sims) []

/-- Python `l[-k:]`: the last `k` elements — except that `k = 0` yields the
whole list (`l[-0:] == l[0:] == l`). -/
def pySliceLast {α : Type} (k : Nat) (l : List α) : List α :=
  if k = 0 then l else l.drop (l.length - k)

/-- The texts cached for the active session
(`[text for cid, text in self.stored_texts if cid == self.chat_id]`). -/
def chatTexts (m : SimpleMemoryManager) : List String :=
  (m.stored_texts.filter fun p => p.1 == m.chat_id).map Prod.snd

/-- `find_relevant(query, top_k=2, min_sim=0.3)`. -/
def find_relevant (S : SimModel) (m : SimpleMemoryManager) (query : String)
    (top_k : Nat) (min_sim : ℚ) : List String × SimpleMemoryManager :=
  let cts := chatTexts m
  if cts.length < 2 then ([], m)
  else
    match S.sims cts query with
    | none => ([], m)
    | some sims =>
      let top_idx := (pySliceLast top_k (argsortAsc sims)).reverse
      let relevant := (top_idx.filter fun i => min_sim ≤ sims.getD i 0).map fun i => cts.getD i ""
      (relevant, {m with metrics := {m.metrics with
        semantic_recalls := m.metrics.semantic_recalls + 1}})

/-! ## Helper lemmas -/

theorem update_session_metrics (m : SimpleMemoryManager) (t p : String) :
    (update_session m t p).metrics = m.metrics := by
  unfold update_session; split <;> rfl

theorem update_session_stored_texts (m : SimpleMemoryManager) (t p : String) :
    (update_session m t p).stored_texts = m.stored_texts := by
  unfold update_session; split <;> rfl

theorem update_session_chat_id (m : SimpleMemoryManager) (t p : String) :
    (update_session m t p).chat_id = m.chat_id := by
  unfold update_session; split <;> rfl

theorem update_session_encoded_memory (m : SimpleMemoryManager) (t p : String) :
    (update_session m t p).db.encoded_memory = m.db.encoded_memory := by
  unfold update_session; split <;> rfl

theorem create_session_metrics (m : SimpleMemoryManager) (t : String) :
    (create_session m t).metrics = m.metrics := by
  unfold create_session; split
  · rfl
  · split <;> rfl

/-- A fixed interpretation of the similarity oracle (every cached text gets
similarity 1), for concrete witnesses. -/
def simOracle : SimModel where
  sims ts _ := some (ts.map fun _ => 1)
  sims_length := by
    intro ts q r h
    simp only [Option.some.injEq] at h
    subst h
    simp

/-! ## C1 — codec round-trip -/

/-- C1: for every string `s` (including the empty string) and any title `t`,
`decode_text_local` applied to the `encoded_data` produced by
`encode_text_local(s, t)` returns `s` exactly. -/
theorem c1_encode_decode_roundtrip (E : ExtFns) (s t : String) :
    decode_text_local E (encode_text_local E s t).encoded_data = .ok s :=
  decode_encode_aux E s t

theorem c1_witness :
    decode_text_local extModel (encode_text_local extModel "" "title").encoded_data = .ok "" :=
  c1_encode_decode_roundtrip extModel "" "title"

/-! ## C8 — decode failure during reabsorption -/

/-- C8: if the oldest stored payload of the active session does not decode
(`decode_text_local` raises), `reabsorb_oldest` propagates that error and the
manager — in particular the durable store — is left exactly as it was: the
corrupt row is not deleted, no other row is deleted, no metrics move, and no
partial plaintext is produced. -/
theorem c8_decode_failure (E : ExtFns) (m : SimpleMemoryManager) (row : EncodedRow)
    (e : String) (hrow : (sessionRows m.db m.chat_id).head? = some row)
    (hdec : decode_text_local E row.encoded_data = .error e) :
    reabsorb_oldest E m = (.error e, m) := by
  unfold reabsorb_oldest
  rw [hrow]
  simp [hdec]

/-- A manager whose single stored row carries a payload that is not a valid
product of `encode_text_local` (the empty string: its base64 decodes to zero
bytes, which no lzma stream can be). -/
def corruptMgr : SimpleMemoryManager :=
  {initManager with db := ⟨[⟨1, "GLOBAL", 1, "t", "", 7⟩], [], 2, 1⟩}

theorem c8_witness :
    reabsorb_oldest extModel corruptMgr = (.error "Decompression failed", corruptMgr) :=
  c8_decode_failure extModel corruptMgr ⟨1, "GLOBAL", 1, "t", "", 7⟩
    "Decompression failed" (by decide) (by rfl)

/-! ## C3 — eviction decision -/

/-- C3: `should_reabsorb` first increments the session's turn counter by one,
and returns true iff estimated usage exceeds `0.8 * token_limit` or the
incremented counter is divisible by the reabsorb interval.  (`0 <
reabsorb_interval` restricts to configurations on which the Python code runs
at all: `x % 0` raises `ZeroDivisionError`.) -/
theorem c3_should_reabsorb (m : SimpleMemoryManager) (t : Nat)
    (h : 0 < m.reabsorb_interval) :
    (should_reabsorb m t).2 = {m with turn_counter := m.turn_counter + 1} ∧
    ((should_reabsorb m t).1 = true ↔
      (4 : ℚ) / 5 * m.token_limit < t ∨ m.reabsorb_interval ∣ (m.turn_counter + 1)) := by
  constructor
  · rfl
  · unfold should_reabsorb
    simp only [Bool.or_eq_true, decide_eq_true_eq, beq_iff_eq]
    constructor
    · rintro (h1 | h1)
      · left
        rw [div_mul_eq_mul_div, div_lt_iff₀ (by norm_num : (0:ℚ) < 5)]
        exact_mod_cast (by omega : 4 * m.token_limit < t * 5)
      · right
        exact Nat.dvd_iff_mod_eq_zero.mpr h1
    · rintro (h1 | h1)
      · left
        rw [div_mul_eq_mul_div, div_lt_iff₀ (by norm_num : (0:ℚ) < 5)] at h1
        have h2 : 4 * m.token_limit < t * 5 := by exact_mod_cast h1
        omega
      · right
        exact Nat.dvd_iff_mod_eq_zero.mp h1

theorem c3_witness :
    (should_reabsorb {initManager with token_limit := 100} 40).2
      = {initManager with token_limit := 100, turn_counter := 1} ∧
    ((should_reabsorb {initManager with token_limit := 100} 40).1 = true ↔
      (4 : ℚ) / 5 * (100 : ℕ) < (40 : ℕ) ∨ (3 : ℕ) ∣ 1) := by
  exact c3_should_reabsorb {initManager with token_limit := 100} 40 (by decide)

theorem grade_response_fpInv (m : SimpleMemoryManager) (x : Option String) (r : String) :
    grade_response {m with first_prompt := x} r = grade_response m r := rfl

/-- What an admitted `store_response` does to every observable component:
counters, the appended row, the cache entry, and the untouched
configuration. -/
theorem store_admitted_fields (E : ExtFns) (m : SimpleMemoryManager)
    (response title : String) (fp : Option String) (tok : Option Nat)
    (htok : ¬ effTokens tok response < m.min_tokens_threshold)
    (hgr : ¬ grade_response m response < m.grade_threshold) :
    let m' := store_response E m response title fp tok
    m'.metrics.stores = m.metrics.stores + 1 ∧
    m'.metrics.skipped_short = m.metrics.skipped_short ∧
    m'.metrics.skipped_low_grade = m.metrics.skipped_low_grade ∧
    m'.metrics.reabsorbs = m.metrics.reabsorbs ∧
    m'.metrics.evictions = m.metrics.evictions ∧
    m'.metrics.semantic_recalls = m.metrics.semantic_recalls ∧
    m'.chat_id = m.chat_id ∧
    (∃ ts, m'.db.encoded_memory = m.db.encoded_memory ++
      [⟨m.db.next_id, m.chat_id, ts, title,
        (encode_text_local E response title).encoded_data, effTokens tok response⟩]) ∧
    m'.db.next_id = m.db.next_id + 1 ∧
    m'.stored_texts = m.stored_texts ++ [(m.chat_id, response)] ∧
    m'.min_tokens_threshold = m.min_tokens_threshold ∧
    m'.grade_threshold = m.grade_threshold ∧
    m'.use_grader = m.use_grader ∧
    m'.enable_history = m.enable_history ∧
    m'.token_limit = m.token_limit ∧
    m'.reabsorb_interval = m.reabsorb_interval := by
  intro m'
  unfold m' store_response
  rw [if_neg htok]
  rw [grade_response_fpInv, if_neg hgr]
  unfold update_session DB.tick
  cases hen : m.enable_history <;> split_ifs <;> simp_all

/-! ## C7 — the grading formula

The spec states the score with real-valued division and an explicit floor;
the code uses Python integer division throughout.  The following definitions
transcribe the spec's formula literally (over `ℚ`, with `Nat.floor`), and
the theorem shows it coincides with the code's arithmetic. -/

/-- Spec §4.3: `lengthScore = min(10, wordCount / 10)` over the reals. -/
def specLengthScore (r : String) : ℚ := min 10 ((pySplitCount r : ℚ) / 10)

/-- Spec §4.3: `keywordScore` is 5 if any of `{explain, detail, example}`
occurs case-insensitively in the text, else 3. -/
def specKeywordScore (r : String) : ℚ :=
  if ["explain", "detail", "example"].any fun w => pyContains (pyLower r) (pyLower w)
  then 5 else 3

/-- Spec §4.3: `score = floor((lengthScore + keywordScore) / 2)`. -/
def specScore (r : String) : ℕ := ⌊(specLengthScore r + specKeywordScore r) / 2⌋₊

theorem floor_half_min_formula (w k : ℕ) :
    ⌊(min 10 ((w : ℚ) / 10) + (k : ℚ)) / 2⌋₊ = (min 10 (w / 10) + k) / 2 := by
  rcases lt_or_le w 100 with hw | hw
  · rw [min_eq_right (by
      rw [div_le_iff₀ (by norm_num : (0:ℚ) < 10)]
      exact_mod_cast (by omega : w ≤ 100)),
      min_eq_right (by omega : w / 10 ≤ 10)]
    rw [show ((w:ℚ)/10 + k) / 2 = ((w + 10 * k : ℕ) : ℚ) / ((20 : ℕ) : ℚ) by push_cast; ring]
    rw [Nat.floor_div_nat, Nat.floor_natCast]
    omega
  · rw [min_eq_left (by
      rw [le_div_iff₀ (by norm_num : (0:ℚ) < 10)]
      exact_mod_cast (by omega : 10 * 10 ≤ w)),
      min_eq_left (by omega : 10 ≤ w / 10)]
    rw [show ((10:ℚ) + k) / 2 = ((10 + k : ℕ) : ℚ) / ((2 : ℕ) : ℚ) by push_cast; ring]
    rw [Nat.floor_div_nat, Nat.floor_natCast]

/-- C7: with grading enabled, the computed quality score equals the spec's
`floor((lengthScore + keywordScore) / 2)` with
`lengthScore = min(10, wordCount / 10)` over the whitespace-separated word
count, and `keywordScore` 5 or 3 by case-insensitive keyword occurrence. -/
theorem c7_grade_formula (m : SimpleMemoryManager) (r : String)
    (h : m.use_grader = true) :
    grade_response m r = specScore r := by
  have hkw : specKeywordScore r = if hasAnyKeyword r then (5:ℚ) else 3 := by
    unfold specKeywordScore hasAnyKeyword
    simp only [List.any_cons, List.any_nil,
      show pyLower "explain" = "explain" from by decide,
      show pyLower "detail" = "detail" from by decide,
      show pyLower "example" = "example" from by decide]
  unfold grade_response specScore specLengthScore
  rw [h, hkw]
  cases hk : hasAnyKeyword r
  · simp only [Bool.not_true, Bool.false_eq_true, if_false]
    rw [show ((3:ℚ)) = ((3:ℕ):ℚ) from by norm_cast]
    exact (floor_half_min_formula (pySplitCount r) 3).symm
  · simp only [Bool.not_true, Bool.false_eq_true, if_false, if_true]
    rw [show ((5:ℚ)) = ((5:ℕ):ℚ) from by norm_cast]
    exact (floor_half_min_formula (pySplitCount r) 5).symm

theorem c7_witness :
    grade_response {initManager with use_grader := true} "please explain this" =
      specScore "please explain this" :=
  c7_grade_formula {initManager with use_grader := true} "please explain this" rfl

/-! ## C6 — grading disabled -/

/-- C6 counterexample: grading disabled but `grade_threshold = 8`.  A text
meeting the minimum token threshold is still rejected on quality grounds
(the disabled-grader score is the constant 7, not "the maximum passing
value"), and the low-grade counter moves. -/
theorem c6_cex :
    (store_response extModel {initManager with grade_threshold := 8}
        "hi" "t" none (some 50)).metrics.skipped_low_grade = 1 ∧
    (store_response extModel {initManager with grade_threshold := 8}
        "hi" "t" none (some 50)).metrics.stores = 0 ∧
    ({initManager with grade_threshold := 8}).use_grader = false := by
  refine ⟨by decide, by decide, rfl⟩

/-- C6 (amended): when grading is disabled the score is the constant 7, so
whenever the configured `grade_threshold` does not exceed 7 (as with the
default 6) no rejection on quality grounds is possible: any text meeting the
minimum token threshold is admitted and the low-grade counter is
unchanged. -/
theorem c6_grader_disabled (E : ExtFns) (m : SimpleMemoryManager)
    (response title : String) (fp : Option String) (tok : Option Nat)
    (hg : m.use_grader = false) (hth : m.grade_threshold ≤ 7)
    (htok : ¬ effTokens tok response < m.min_tokens_threshold) :
    grade_response m response = 7 ∧
    (store_response E m response title fp tok).metrics.skipped_low_grade
      = m.metrics.skipped_low_grade ∧
    (store_response E m response title fp tok).metrics.stores = m.metrics.stores + 1 := by
  have hscore : grade_response m response = 7 := by simp [grade_response, hg]
  have hgr : ¬ grade_response m response < m.grade_threshold := by omega
  obtain ⟨h1, _, h3, _⟩ := store_admitted_fields E m response title fp tok htok hgr
  exact ⟨hscore, h3, h1⟩

theorem c6_witness :
    grade_response initManager "hi" = 7 ∧
    (store_response extModel initManager "hi" "t" none (some 50)).metrics.skipped_low_grade
      = initManager.metrics.skipped_low_grade ∧
    (store_response extModel initManager "hi" "t" none (some 50)).metrics.stores
      = initManager.metrics.stores + 1 :=
  c6_grader_disabled extModel initManager "hi" "t" none (some 50) rfl (by decide) (by decide)

/-! ## C10 — rejected stores leave the state untouched -/

/-- What a rejected `store_response` leaves untouched, and the one skip
counter it bumps. -/
theorem store_rejected_fields (E : ExtFns) (m : SimpleMemoryManager)
    (response title : String) (fp : Option String) (tok : Option Nat)
    (hrej : effTokens tok response < m.min_tokens_threshold ∨
      grade_response m response < m.grade_threshold) :
    let m' := store_response E m response title fp tok
    m'.db = m.db ∧
    m'.stored_texts = m.stored_texts ∧
    m'.metrics.stores = m.metrics.stores ∧
    m'.metrics.total_compressed_chars = m.metrics.total_compressed_chars ∧
    m'.metrics.reabsorbs = m.metrics.reabsorbs ∧
    m'.metrics.evictions = m.metrics.evictions ∧
    m'.metrics.semantic_recalls = m.metrics.semantic_recalls ∧
    (if effTokens tok response < m.min_tokens_threshold then
      m'.metrics.skipped_short = m.metrics.skipped_short + 1 ∧
      m'.metrics.skipped_low_grade = m.metrics.skipped_low_grade
    else
      m'.metrics.skipped_short = m.metrics.skipped_short ∧
      m'.metrics.skipped_low_grade = m.metrics.skipped_low_grade + 1) := by
  intro m'
  by_cases hs : effTokens tok response < m.min_tokens_threshold
  · unfold m' store_response
    rw [if_pos hs]
    simp [hs]
  · have hgr : grade_response m response < m.grade_threshold := by tauto
    unfold m' store_response
    rw [if_neg hs, grade_response_fpInv, if_pos hgr]
    simp [hs]

/-- C10: a rejected `store_response` (too short, or low grade) leaves the
durable store, the plaintext cache, the `stores` counter and the bytes-saved
accumulator unchanged, and bumps exactly the skip counter matching the
rejection reason.  (No exception is possible: both rejection paths are plain
early returns.) -/
theorem c10_reject_frame (E : ExtFns) (m : SimpleMemoryManager)
    (response title : String) (fp : Option String) (tok : Option Nat)
    (hrej : effTokens tok response < m.min_tokens_threshold ∨
      grade_response m response < m.grade_threshold) :
    let m' := store_response E m response title fp tok
    m'.db = m.db ∧
    m'.stored_texts = m.stored_texts ∧
    m'.metrics.stores = m.metrics.stores ∧
    m'.metrics.total_compressed_chars = m.metrics.total_compressed_chars ∧
    (if effTokens tok response < m.min_tokens_threshold then
      m'.metrics.skipped_short = m.metrics.skipped_short + 1 ∧
      m'.metrics.skipped_low_grade = m.metrics.skipped_low_grade
    else
      m'.metrics.skipped_short = m.metrics.skipped_short ∧
      m'.metrics.skipped_low_grade = m.metrics.skipped_low_grade + 1) := by
  obtain ⟨h1, h2, h3, h4, _, _, _, h8⟩ :=
    store_rejected_fields E m response title fp tok hrej
  exact ⟨h1, h2, h3, h4, h8⟩

theorem c10_witness :
    let m' := store_response extModel initManager "hi" "t" none (some 10)
    (m'.db = initManager.db ∧
    m'.stored_texts = initManager.stored_texts ∧
    m'.metrics.stores = initManager.metrics.stores ∧
    m'.metrics.total_compressed_chars = initManager.metrics.total_compressed_chars ∧
    (if effTokens (some 10) "hi" < initManager.min_tokens_threshold then
      m'.metrics.skipped_short = initManager.metrics.skipped_short + 1 ∧
      m'.metrics.skipped_low_grade = initManager.metrics.skipped_low_grade
    else
      m'.metrics.skipped_short = initManager.metrics.skipped_short ∧
      m'.metrics.skipped_low_grade = initManager.metrics.skipped_low_grade + 1)) :=
  c10_reject_frame extModel initManager "hi" "t" none (some 10) (Or.inl (by decide))

/-! ## C9 — recall bounds -/

theorem mem_insertAsc (sims : List ℚ) (i x : Nat) :
    ∀ l : List Nat, x ∈ insertAsc sims i l ↔ x = i ∨ x ∈ l := by
  intro l
  induction l with
  | nil => simp [insertAsc]
  | cons j t ih =>
    unfold insertAsc
    split
    · simp
    · simp only [List.mem_cons, ih]
      tauto

theorem mem_argsortAsc (sims : List ℚ) (x : Nat) (hx : x ∈ argsortAsc sims) :
    x < sims.length := by
  unfold argsortAsc at hx
  suffices h : ∀ l acc : List Nat, x ∈ l.foldr (insertAsc sims) acc → x ∈ l ∨ x ∈ acc by
    rcases h (List.range sims.length) [] hx with h1 | h1
    · exact List.mem_range.mp h1
    · simp at h1
  intro l
  induction l with
  | nil => intro acc h; right; exact h
  | cons a t ih =>
    intro acc h
    rw [List.foldr_cons] at h
    rcases (mem_insertAsc sims a x _).mp h with rfl | h2
    · left; simp
    · rcases ih acc h2 with h3 | h3
      · left; simp [h3]
      · right; exact h3

theorem pySliceLast_length_le {α : Type} (k : Nat) (l : List α) (hk : 1 ≤ k) :
    (pySliceLast k l).length ≤ k := by
  unfold pySliceLast
  rw [if_neg (by omega : ¬ k = 0)]
  rw [List.length_drop]
  omega

theorem pySliceLast_subset {α : Type} (k : Nat) (l : List α) : pySliceLast k l ⊆ l := by
  unfold pySliceLast
  split
  · exact fun x h => h
  · exact List.drop_subset _ _

/-- C9 (amended: `top_k ≥ 1`): `find_relevant` returns at most `top_k`
texts, each of which is a cached text of the session whose similarity to the
query is at least `min_sim`; with fewer than 2 cached texts it returns the
empty sequence.  (For `top_k = 0` see the counterexample: the `[-top_k:]`
slice degenerates to the whole list.) -/
theorem c9_find_relevant (S : SimModel) (m : SimpleMemoryManager) (q : String)
    (k : Nat) (ms : ℚ) (hk : 1 ≤ k) :
    (find_relevant S m q k ms).1.length ≤ k ∧
    (∀ t ∈ (find_relevant S m q k ms).1, ∃ sims i, S.sims (chatTexts m) q = some sims ∧
      i < (chatTexts m).length ∧ t = (chatTexts m).getD i "" ∧ ms ≤ sims.getD i 0) ∧
    ((chatTexts m).length < 2 → (find_relevant S m q k ms).1 = []) := by
  by_cases h2 : (chatTexts m).length < 2
  · simp [find_relevant, h2]
  · rcases hS : S.sims (chatTexts m) q with _ | sims
    · simp [find_relevant, h2, hS]
    · have hlen : sims.length = (chatTexts m).length := S.sims_length _ _ _ hS
      unfold find_relevant
      rw [if_neg h2, hS]
      refine ⟨?_, ?_, fun h => absurd h h2⟩
      · calc ((((pySliceLast k (argsortAsc sims)).reverse.filter
              fun i => ms ≤ sims.getD i 0).map fun i => (chatTexts m).getD i "").length)
            = ((pySliceLast k (argsortAsc sims)).reverse.filter
              fun i => ms ≤ sims.getD i 0).length := List.length_map _ _
          _ ≤ (pySliceLast k (argsortAsc sims)).reverse.length := List.length_filter_le _ _
          _ = (pySliceLast k (argsortAsc sims)).length := List.length_reverse _
          _ ≤ k := pySliceLast_length_le k _ hk
      · intro t ht
        simp only [List.mem_map, List.mem_filter, List.mem_reverse,
          decide_eq_true_eq] at ht
        obtain ⟨i, ⟨hi_mem, hi_sim⟩, rfl⟩ := ht
        have hi_lt : i < sims.length :=
          mem_argsortAsc sims i (pySliceLast_subset k _ hi_mem)
        exact ⟨sims, i, rfl, by omega, rfl, hi_sim⟩

/-- C9 counterexample: with `top_k = 0` the Python slice `[-top_k:]` is the
whole index list, so `find_relevant` returns more than `top_k` entries (here
2 > 0) — the "never more than topK" claim fails at `top_k = 0`. -/
theorem c9_cex :
    ¬ ((find_relevant simOracle
        {initManager with stored_texts := [("GLOBAL", "t1"), ("GLOBAL", "t2")]}
        "q" 0 0).1.length ≤ 0) := by decide

theorem c9_witness :
    (find_relevant simOracle
        {initManager with stored_texts := [("GLOBAL", "t1"), ("GLOBAL", "t2")]}
        "q" 2 (3/10)).1.length ≤ 2 ∧
    (∀ t ∈ (find_relevant simOracle
        {initManager with stored_texts := [("GLOBAL", "t1"), ("GLOBAL", "t2")]}
        "q" 2 (3/10)).1, ∃ sims i,
      simOracle.sims (chatTexts {initManager with
        stored_texts := [("GLOBAL", "t1"), ("GLOBAL", "t2")]}) "q" = some sims ∧
      i < (chatTexts {initManager with
        stored_texts := [("GLOBAL", "t1"), ("GLOBAL", "t2")]}).length ∧
      t = (chatTexts {initManager with
        stored_texts := [("GLOBAL", "t1"), ("GLOBAL", "t2")]}).getD i "" ∧
      (3/10 : ℚ) ≤ sims.getD i 0) ∧
    ((chatTexts {initManager with
        stored_texts := [("GLOBAL", "t1"), ("GLOBAL", "t2")]}).length < 2 →
      (find_relevant simOracle {initManager with
        stored_texts := [("GLOBAL", "t1"), ("GLOBAL", "t2")]} "q" 2 (3/10)).1 = []) :=
  c9_find_relevant simOracle
    {initManager with stored_texts := [("GLOBAL", "t1"), ("GLOBAL", "t2")]}
    "q" 2 (3/10) (by omega)

/-! ## C4 — session isolation -/

/-- Drop every turn tagged with session `X`: the rows of the durable log and
the entries of the plaintext cache. -/
def eraseTurns (X : String) (m : SimpleMemoryManager) : SimpleMemoryManager :=
  {m with
    db := {m.db with
      encoded_memory := m.db.encoded_memory.filter fun r => !(r.chat_id == X)},
    stored_texts := m.stored_texts.filter fun p => !(p.1 == X)}

theorem filter_beq_erase {α : Type} (f : α → String) (X Y : String) (hXY : X ≠ Y) :
    ∀ l : List α, (l.filter fun a => !(f a == X)).filter (fun a => f a == Y)
      = l.filter fun a => f a == Y := by
  intro l
  induction l with
  | nil => rfl
  | cons a t ih =>
    by_cases hX : f a = X
    · have hY : ¬ f a = Y := by rw [hX]; exact hXY
      simp [List.filter_cons, beq_iff_eq, hX, hXY, hY, ih]
    · by_cases hY : f a = Y <;>
        simp [List.filter_cons, beq_iff_eq, hX, hY, Ne.symm hXY, ih]

/-- C4: a turn stored under session `X` is invisible to every query for a
different session `Y`: deleting all of `X`'s turns changes neither
`get_session_history(Y)` nor `get_stored_tokens_for_session(Y)` nor the
result of `find_relevant` run with `Y` active.  (Turns are tagged with the
active `chat_id` at store time, and all three queries filter on that tag.) -/
theorem c4_session_isolation (S : SimModel) (X Y : String) (m : SimpleMemoryManager)
    (q : String) (k : Nat) (ms : ℚ) (hXY : X ≠ Y) :
    get_session_history (eraseTurns X m) Y = get_session_history m Y ∧
    get_stored_tokens_for_session (eraseTurns X m) Y = get_stored_tokens_for_session m Y ∧
    (m.chat_id = Y → (find_relevant S (eraseTurns X m) q k ms).1 = (find_relevant S m q k ms).1) := by
  refine ⟨?_, ?_, ?_⟩
  · unfold get_session_history eraseTurns
    exact congrArg (List.map fun r => (r.title, r.orig_tokens, r.timestamp))
      (filter_beq_erase (fun r => r.chat_id) X Y hXY m.db.encoded_memory)
  · unfold get_stored_tokens_for_session eraseTurns
    exact congrArg (fun l => (List.map (fun r => r.orig_tokens) l).sum)
      (filter_beq_erase (fun r => r.chat_id) X Y hXY m.db.encoded_memory)
  · intro hY
    have hct : chatTexts (eraseTurns X m) = chatTexts m := by
      unfold chatTexts eraseTurns
      exact congrArg (List.map Prod.snd)
        (filter_beq_erase (fun p => p.1) X m.chat_id (by rw [hY]; exact hXY)
          m.stored_texts)
    unfold find_relevant
    rw [hct]
    by_cases h2 : (chatTexts m).length < 2
    · simp [h2]
    · rcases hS : S.sims (chatTexts m) q with _ | sims <;> simp [h2, hS]

theorem c4_witness :
    let m0 : SimpleMemoryManager :=
      {initManager with
        chat_id := "y",
        db := ⟨[⟨1, "x", 1, "tx", "px", 3⟩, ⟨2, "y", 2, "ty", "py", 4⟩], [], 3, 2⟩,
        stored_texts := [("x", "hello"), ("y", "there"), ("y", "again")]}
    get_session_history (eraseTurns "x" m0) "y" = get_session_history m0 "y" ∧
    get_stored_tokens_for_session (eraseTurns "x" m0) "y"
      = get_stored_tokens_for_session m0 "y" ∧
    (m0.chat_id = "y" →
      (find_relevant simOracle (eraseTurns "x" m0) "q" 2 (3/10)).1
        = (find_relevant simOracle m0 "q" 2 (3/10)).1) :=
  c4_session_isolation simOracle "x" "y" _ "q" 2 (3/10) (by decide)

/-! ## C5 — metrics monotonicity -/

theorem set_chat_id_metrics (m : SimpleMemoryManager) (cid : String) :
    (set_chat_id m cid).metrics = m.metrics := by
  unfold set_chat_id
  by_cases he : m.enable_history = true <;> simp [he, create_session_metrics]

theorem delete_session_metrics (m : SimpleMemoryManager) (cid : String) :
    (delete_session m cid).metrics = m.metrics := by
  unfold delete_session
  split <;> rfl

/-- The operations a caller can drive a `SimpleMemoryManager` through. -/
inductive MOp where
  | store (response title : String) (fp : Option String) (tok : Option Nat)
  | reabsorb
  | shouldReab (tokens : Nat)
  | findRel (q : String) (k : Nat) (ms : ℚ)
  | setChat (cid : String)
  | createSess (title : String)
  | updateSess (title preview : String)
  | deleteSess (cid : String)

def stepOp (E : ExtFns) (S : SimModel) : MOp → SimpleMemoryManager → SimpleMemoryManager
  | .store r t fp tok, m => store_response E m r t fp tok
  | .reabsorb, m => (reabsorb_oldest E m).2
  | .shouldReab t, m => (should_reabsorb m t).2
  | .findRel q k ms, m => (find_relevant S m q k ms).2
  | .setChat cid, m => set_chat_id m cid
  | .createSess t, m => create_session m t
  | .updateSess t p, m => update_session m t p
  | .deleteSess cid, m => delete_session m cid

def runOps (E : ExtFns) (S : SimModel) (ops : List MOp) (m : SimpleMemoryManager) :
    SimpleMemoryManager :=
  ops.foldl (fun m op => stepOp E S op m) m

theorem stepOp_counters (E : ExtFns) (S : SimModel) (op : MOp) (m : SimpleMemoryManager) :
    m.metrics.stores ≤ (stepOp E S op m).metrics.stores ∧
    m.metrics.skipped_short ≤ (stepOp E S op m).metrics.skipped_short ∧
    m.metrics.skipped_low_grade ≤ (stepOp E S op m).metrics.skipped_low_grade ∧
    m.metrics.reabsorbs ≤ (stepOp E S op m).metrics.reabsorbs ∧
    m.metrics.semantic_recalls ≤ (stepOp E S op m).metrics.semantic_recalls := by
  cases op with
  | store r t fp tok =>
    by_cases hrej : effTokens tok r < m.min_tokens_threshold ∨
        grade_response m r < m.grade_threshold
    · obtain ⟨_, _, h3, _, h5, _, h7, h8⟩ := store_rejected_fields E m r t fp tok hrej
      unfold stepOp
      rw [h3, h5, h7]
      split at h8 <;> obtain ⟨ha, hb⟩ := h8 <;> rw [ha, hb] <;> omega
    · push_neg at hrej
      obtain ⟨h1, h2, h3, h4, _, h6, _⟩ :=
        store_admitted_fields E m r t fp tok (by omega) (by omega)
      unfold stepOp
      rw [h1, h2, h3, h4, h6]
      omega
  | reabsorb =>
    unfold stepOp reabsorb_oldest
    rcases hh : (sessionRows m.db m.chat_id).head? with _ | row
    · simp [hh]
    · rcases hd : decode_text_local E row.encoded_data with e | text <;>
        simp [hh, hd] <;> omega
  | shouldReab t => exact ⟨le_refl _, le_refl _, le_refl _, le_refl _, le_refl _⟩
  | findRel q k ms =>
    unfold stepOp find_relevant
    by_cases h2 : (chatTexts m).length < 2
    · simp [h2]
    · rcases hS : S.sims (chatTexts m) q with _ | sims <;> simp [h2, hS] <;> omega
  | setChat cid =>
    unfold stepOp
    rw [set_chat_id_metrics]
    omega
  | createSess t =>
    unfold stepOp
    rw [create_session_metrics]
    omega
  | updateSess t p =>
    unfold stepOp
    rw [update_session_metrics]
    omega
  | deleteSess cid =>
    unfold stepOp
    rw [delete_session_metrics]
    omega

/-- C5 (amended): the `stores`, `skipped_short`, `skipped_low_grade`,
`reabsorbs` and `semantic_recalls` counters are monotonically non-decreasing
across every sequence of operations within a manager's lifetime.  The
bytes-saved accumulator `total_compressed_chars` is exempt: it is a signed
sum of `orig_chars - len(encoded_data)` deltas and decreases whenever the
encoded payload is longer than the original text (see the
counterexample). -/
theorem c5_counters_monotone (E : ExtFns) (S : SimModel) (ops : List MOp)
    (m : SimpleMemoryManager) :
    m.metrics.stores ≤ (runOps E S ops m).metrics.stores ∧
    m.metrics.skipped_short ≤ (runOps E S ops m).metrics.skipped_short ∧
    m.metrics.skipped_low_grade ≤ (runOps E S ops m).metrics.skipped_low_grade ∧
    m.metrics.reabsorbs ≤ (runOps E S ops m).metrics.reabsorbs ∧
    m.metrics.semantic_recalls ≤ (runOps E S ops m).metrics.semantic_recalls := by
  induction ops generalizing m with
  | nil => exact ⟨le_refl _, le_refl _, le_refl _, le_refl _, le_refl _⟩
  | cons op t ih =>
    obtain ⟨h1, h2, h3, h4, h5⟩ := stepOp_counters E S op m
    obtain ⟨g1, g2, g3, g4, g5⟩ := ih (stepOp E S op m)
    unfold runOps at g1 g2 g3 g4 g5 ⊢
    rw [List.foldl_cons]
    exact ⟨h1.trans g1, h2.trans g2, h3.trans g3, h4.trans g4, h5.trans g5⟩

theorem c5_witness :
    initManager.metrics.stores
      ≤ (runOps extModel simOracle [.reabsorb, .shouldReab 5] initManager).metrics.stores ∧
    initManager.metrics.skipped_short
      ≤ (runOps extModel simOracle [.reabsorb, .shouldReab 5] initManager).metrics.skipped_short ∧
    initManager.metrics.skipped_low_grade
      ≤ (runOps extModel simOracle [.reabsorb, .shouldReab 5] initManager).metrics.skipped_low_grade ∧
    initManager.metrics.reabsorbs
      ≤ (runOps extModel simOracle [.reabsorb, .shouldReab 5] initManager).metrics.reabsorbs ∧
    initManager.metrics.semantic_recalls
      ≤ (runOps extModel simOracle [.reabsorb, .shouldReab 5] initManager).metrics.semantic_recalls :=
  c5_counters_monotone extModel simOracle [.reabsorb, .shouldReab 5] initManager

/-- C5 counterexample: one admitted store of a 2-character text (with an
explicit token count clearing the admission threshold) drives the bytes-saved
accumulator *down*: the encoded payload (compressed container framing,
base64-expanded) is longer than the original text, so
`total_compressed_chars` is not monotonically non-decreasing. -/
theorem c5_cex :
    (stepOp extModel simOracle (.store "hi" "t" none (some 50))
        initManager).metrics.total_compressed_chars
      < initManager.metrics.total_compressed_chars := by decide

/-! ## C2 — eviction ordering -/

theorem grade_of_disabled (m : SimpleMemoryManager) (r : String)
    (hm : m.use_grader = false) : grade_response m r = 7 := by
  simp [grade_response, hm]

/-- One reabsorption step on a session whose log starts with a well-encoded
row: returns its decoded text, deletes exactly that row. -/
theorem reabsorb_step (E : ExtFns) (m : SimpleMemoryManager) (cid : String)
    (rid ts : Nat) (ti x : String) (tX : Nat) (rest : List EncodedRow)
    (hcid : m.chat_id = cid)
    (hem : m.db.encoded_memory =
      ⟨rid, cid, ts, ti, (encode_text_local E x ti).encoded_data, tX⟩ :: rest)
    (hrest : ∀ r ∈ rest, r.chat_id = cid)
    (hrid : ∀ r ∈ rest, ¬ r.rowid = rid) :
    (reabsorb_oldest E m).1 = .ok x ∧
    (reabsorb_oldest E m).2.db.encoded_memory = rest ∧
    (reabsorb_oldest E m).2.chat_id = cid := by
  unfold reabsorb_oldest sessionRows
  rw [hem, hcid]
  rw [List.filter_cons_of_pos (by simp)]
  rw [List.head?_cons]
  dsimp only
  rw [decode_encode_aux]
  dsimp only
  refine ⟨rfl, ?_, rfl⟩
  rw [List.filter_cons_of_neg (by simp)]
  exact List.filter_eq_self.mpr fun r hr => by
    simp [hrid r hr, hrest r hr]

theorem reabsorb_empty (E : ExtFns) (m : SimpleMemoryManager)
    (hem : m.db.encoded_memory = []) : (reabsorb_oldest E m).1 = .ok "" := by
  unfold reabsorb_oldest sessionRows
  rw [hem]
  rfl

/-- C2: starting from a fresh manager (default configuration, active session
`'GLOBAL'`), admitting turns `a`, `b`, `c` in that order and nothing else,
four successive calls of `reabsorb_oldest` return the decoded text of `a`,
then `b`, then `c`, then the empty result (the session has no turns left).
The hypotheses say exactly that each turn clears the admission threshold
(the default grader is disabled, so no quality rejection is possible). -/
theorem c2_eviction_order (E : ExtFns) (a b c t1 t2 t3 : String) (ta tb tc : Option Nat)
    (ha : ¬ effTokens ta a < 50) (hb : ¬ effTokens tb b < 50) (hc : ¬ effTokens tc c < 50) :
    let m1 := store_response E initManager a t1 none ta
    let m2 := store_response E m1 b t2 none tb
    let m3 := store_response E m2 c t3 none tc
    (reabsorb_oldest E m3).1 = .ok a ∧
    (reabsorb_oldest E (reabsorb_oldest E m3).2).1 = .ok b ∧
    (reabsorb_oldest E (reabsorb_oldest E (reabsorb_oldest E m3).2).2).1 = .ok c ∧
    (reabsorb_oldest E
      (reabsorb_oldest E (reabsorb_oldest E (reabsorb_oldest E m3).2).2).2).1 = .ok "" := by
  intro m1 m2 m3
  obtain ⟨_, _, _, _, _, _, hcid1, ⟨ts1, hem1⟩, hnid1, _, hmin1, hgth1, hgrd1, _, _, _⟩ :=
    store_admitted_fields E initManager a t1 none ta ha
      (by rw [grade_of_disabled initManager a rfl]; decide)
  obtain ⟨_, _, _, _, _, _, hcid2, ⟨ts2, hem2⟩, hnid2, _, hmin2, hgth2, hgrd2, _, _, _⟩ :=
    store_admitted_fields E m1 b t2 none tb
      (by rw [hmin1]; exact hb)
      (by rw [grade_of_disabled m1 b (by rw [hgrd1]; rfl)]; rw [hgth1]; decide)
  obtain ⟨_, _, _, _, _, _, hcid3, ⟨ts3, hem3⟩, hnid3, _, hmin3, hgth3, hgrd3, _, _, _⟩ :=
    store_admitted_fields E m2 c t3 none tc
      (by rw [hmin2, hmin1]; exact hc)
      (by rw [grade_of_disabled m2 c (by rw [hgrd2, hgrd1]; rfl)]; rw [hgth2, hgth1]; decide)
  have hc1 : m1.chat_id = "GLOBAL" := hcid1
  have hc2 : m2.chat_id = "GLOBAL" := hcid2.trans hc1
  have hc3 : m3.chat_id = "GLOBAL" := hcid3.trans hc2
  have hn1 : m1.db.next_id = 2 := hnid1
  have hn2 : m2.db.next_id = 3 := by rw [hnid2, hn1]
  have hE1 : m1.db.encoded_memory =
      [⟨1, "GLOBAL", ts1, t1, (encode_text_local E a t1).encoded_data, effTokens ta a⟩] := by
    rw [hem1]; rfl
  have hE2 : m2.db.encoded_memory =
      [⟨1, "GLOBAL", ts1, t1, (encode_text_local E a t1).encoded_data, effTokens ta a⟩,
       ⟨2, "GLOBAL", ts2, t2, (encode_text_local E b t2).encoded_data, effTokens tb b⟩] := by
    rw [hem2, hE1, hn1, hc1]; rfl
  have hE3 : m3.db.encoded_memory =
      [⟨1, "GLOBAL", ts1, t1, (encode_text_local E a t1).encoded_data, effTokens ta a⟩,
       ⟨2, "GLOBAL", ts2, t2, (encode_text_local E b t2).encoded_data, effTokens tb b⟩,
       ⟨3, "GLOBAL", ts3, t3, (encode_text_local E c t3).encoded_data, effTokens tc c⟩] := by
    rw [hem3, hE2, hn2, hc2]; rfl
  obtain ⟨s1a, s1b, s1c⟩ :=
    reabsorb_step E m3 "GLOBAL" 1 ts1 t1 a (effTokens ta a)
      [⟨2, "GLOBAL", ts2, t2, (encode_text_local E b t2).encoded_data, effTokens tb b⟩,
       ⟨3, "GLOBAL", ts3, t3, (encode_text_local E c t3).encoded_data, effTokens tc c⟩]
      hc3 hE3
      (by intro r hr; simp only [List.mem_cons, List.not_mem_nil, or_false] at hr
          rcases hr with rfl | rfl <;> rfl)
      (by intro r hr; simp only [List.mem_cons, List.not_mem_nil, or_false] at hr
          rcases hr with rfl | rfl <;> simp)
  obtain ⟨s2a, s2b, s2c⟩ :=
    reabsorb_step E (reabsorb_oldest E m3).2 "GLOBAL" 2 ts2 t2 b (effTokens tb b)
      [⟨3, "GLOBAL", ts3, t3, (encode_text_local E c t3).encoded_data, effTokens tc c⟩]
      s1c s1b
      (by intro r hr; simp only [List.mem_cons, List.not_mem_nil, or_false] at hr
          rcases hr with rfl; rfl)
      (by intro r hr; simp only [List.mem_cons, List.not_mem_nil, or_false] at hr
          rcases hr with rfl; simp)
  obtain ⟨s3a, s3b, s3c⟩ :=
    reabsorb_step E (reabsorb_oldest E (reabsorb_oldest E m3).2).2 "GLOBAL" 3 ts3 t3 c
      (effTokens tc c) [] s2c s2b (by intro r hr; simp at hr) (by intro r hr; simp at hr)
  exact ⟨s1a, s2a, s3a,
    reabsorb_empty E (reabsorb_oldest E (reabsorb_oldest E (reabsorb_oldest E m3).2).2).2 s3b⟩

theorem c2_witness :
    let m1 := store_response extModel initManager "alpha" "t1" none (some 50)
    let m2 := store_response extModel m1 "beta" "t2" none (some 60)
    let m3 := store_response extModel m2 "gamma" "t3" none (some 70)
    ((reabsorb_oldest extModel m3).1 = .ok "alpha" ∧
    (reabsorb_oldest extModel (reabsorb_oldest extModel m3).2).1 = .ok "beta" ∧
    (reabsorb_oldest extModel
      (reabsorb_oldest extModel (reabsorb_oldest extModel m3).2).2).1 = .ok "gamma" ∧
    (reabsorb_oldest extModel (reabsorb_oldest extModel
      (reabsorb_oldest extModel (reabsorb_oldest extModel m3).2).2).2).1 = .ok "") :=
  c2_eviction_order extModel "alpha" "beta" "gamma" "t1" "t2" "t3"
    (some 50) (some 60) (some 70) (by decide) (by decide) (by decide)
